import Mathlib

/-!
Verification of the score extraction and tokenization pipeline of the
Graduation_Project repository (`source/preprocess/preprocess_midi.py` and
`source/preprocess/encode.py`).

The Python code is shallowly embedded: dictionaries become structures,
the overloaded `"events"` field (list of events or the string sentinel
`"bar_fill"`) becomes a tagged union, and machine integers/ticks become
`Nat`/`Int` and times in sixteenth-note units become `Rat` (the source
divides integer ticks by 250 producing exact decimal values in the
ranges used).  Randomness (`random.choice`, `random.shuffle`) is made
explicit through an oracle parameter supplying the drawn indices.
-/

namespace GradProj

/-- `TICKS_PER_BEAT = 1000` (preprocess_midi.py line 9). -/
def TICKS_PER_BEAT : ℕ := 1000

/-- `BEATS_PER_BAR = 4` (preprocess_midi.py line 10). -/
def BEATS_PER_BAR : ℕ := 4

/-- `TICKS_PER_BAR = TICKS_PER_BEAT * BEATS_PER_BAR = 4000`. -/
def TICKS_PER_BAR : ℕ := TICKS_PER_BEAT * BEATS_PER_BAR

/-- An event dictionary of the intermediate representation:
`{"type": "NOTE_ON"|"NOTE_OFF", "pitch": ...}` or
`{"type": "TIME_DELTA", "delta": ...}`. -/
inductive EventData where
  | NOTE_ON (pitch : ℤ)
  | NOTE_OFF (pitch : ℤ)
  | TIME_DELTA (delta : ℚ)
deriving DecidableEq, Repr

/-- The `"events"` field of a bar dictionary: either a list of events or
the literal string sentinel `"bar_fill"`. -/
inductive BarEvents where
  | list (evs : List EventData)
  | bar_fill
deriving DecidableEq, Repr

/-- A bar dictionary `{"events": ...}`. -/
structure BarData where
  events : BarEvents
deriving DecidableEq, Repr

/-- A track dictionary `{"name": ..., "number": ..., "bars": ...}`.
`drums` models the optional `"drums"` key read via
`track_data.get("drums", False)` in encode.py line 166. -/
structure TrackData where
  name : String
  number : ℤ
  drums : Bool := false
  bars : List BarData
deriving DecidableEq, Repr

/-- A song dictionary `{"title": ..., "tracks": ...}`. -/
structure SongData where
  title : String
  tracks : List TrackData
deriving DecidableEq, Repr

/-- Python `range(start, stop, step)` for a non-negative step.  A zero
step raises `ValueError` in Python; it is modelled as the empty list and
is excluded by hypotheses wherever it matters. -/
def pyRange (start stop step : ℕ) : List ℕ :=
  List.range' start ((stop - start + step - 1) / step) step

/-- Python slice `l[s:e]` for non-negative bounds. -/
def pySlice (l : List α) (s e : ℕ) : List α :=
  (l.take e).drop s

/-- `get_bars_number` (encode.py lines 297-300): the maximum bar count
over the tracks.  Python `max` on an empty list raises; modelled as 0. -/
def get_bars_number (song : SongData) : ℕ :=
  (song.tracks.map (fun t => t.bars.length)).foldr max 0

/-- `get_bar_indices` (encode.py lines 303-304):
`zip(range(0, bars, hop), range(window, bars, hop))`. -/
def get_bar_indices (bars window_size_bars hop_length_bars : ℕ) :
    List (ℕ × ℕ) :=
  List.zip (pyRange 0 bars hop_length_bars)
    (pyRange window_size_bars bars hop_length_bars)

/-- `np.digitize(x, bins)` with the default `right=False` on ascending
bins: the index of the bucket, equal to the number of edges `≤ x`
(`np.searchsorted(bins, x, side="right")`).  The code only digitizes
integer note counts against rational edges. -/
def np_digitize (x : ℕ) (bins : List ℚ) : ℕ :=
  (bins.filter (fun e => e ≤ (x : ℚ))).length

/-- The binning rule as worded by the spec (for comparison with
`np_digitize`): the smallest bucket index `k` such that `x ≤ edges[k]`,
falling into the last bucket if `x` exceeds all edges. -/
def digitize_spec (x : ℕ) (bins : List ℚ) : ℕ :=
  (bins.findIdx? (fun e => (x : ℚ) ≤ e)).getD bins.length

/-! ## Score extraction (preprocess_midi.py) -/

/-- A note record `{'pitch': ..., 'start': ..., 'end': ...}` collected in
`channel_notes` (preprocess_midi.py lines 102-106).  `stop` models the
source's `'end'` key (`end` is reserved in Lean). -/
structure NoteRec where
  pitch : ℤ
  start : ℕ
  stop : ℕ
deriving DecidableEq, Repr

/-- The type of a raw MIDI message relevant to the extraction loop. -/
inductive MsgType where
  | note_on
  | note_off
  | other
deriving DecidableEq, Repr

/-- A raw MIDI message: delta time, type, channel, note, velocity. -/
structure Msg where
  time : ℕ
  type : MsgType
  channel : ℕ
  note : ℤ
  velocity : ℕ
deriving DecidableEq, Repr

/-- The state of the per-track extraction loop
(preprocess_midi.py lines 81-108): the absolute tick clock, the pending
note-on dictionary `note_on_times` keyed by `(channel, pitch)`, and the
file-level `channel_notes` dictionary (per channel, notes in emission
order). -/
structure ExtractState where
  current_tick : ℕ
  note_on_times : ℕ × ℤ → Option ℕ
  channel_notes : ℕ → List NoteRec

/-- One iteration of the message loop (preprocess_midi.py lines 85-108):
advance the clock by the delta time; a note-on with positive velocity
(over)writes the pending entry for its `(channel, note)` key; a note-off
(or note-on with zero velocity) pairs with the pending entry, if any,
emitting a note and deleting the entry; other messages only advance the
clock. -/
def process_msg (st : ExtractState) (m : Msg) : ExtractState :=
  let tick := st.current_tick + m.time
  if m.type = MsgType.note_on ∧ m.velocity > 0 then
    { st with
      current_tick := tick
      note_on_times := fun k =>
        if k = (m.channel, m.note) then some tick else st.note_on_times k }
  else if m.type = MsgType.note_off ∨
      (m.type = MsgType.note_on ∧ m.velocity = 0) then
    match st.note_on_times (m.channel, m.note) with
    | some start_tick =>
      { current_tick := tick
        note_on_times := fun k =>
          if k = (m.channel, m.note) then none else st.note_on_times k
        channel_notes := fun c =>
          if c = m.channel then
            st.channel_notes c ++ [⟨m.note, start_tick, tick⟩]
          else st.channel_notes c }
    | none => { st with current_tick := tick }
  else
    { st with current_tick := tick }

/-- A marker tuple `(type, pitch, time)` built in `notes_to_bar_data`
before sorting (preprocess_midi.py lines 187-188). -/
inductive MarkerType where
  | NOTE_ON
  | NOTE_OFF
deriving DecidableEq, Repr

/-- `Marker` abbreviates the `(event_type, pitch, time)` tuples of
`notes_to_bar_data`, with times in sixteenth-note units. -/
def Marker : Type := MarkerType × ℤ × ℚ

instance : DecidableEq Marker := by
  unfold Marker
  infer_instance

/-- The comparison used by Python's `sorted(events, key=lambda e: e[2])`:
sort by the time component (stable). -/
def marker_le (a b : Marker) : Bool :=
  a.2.2 ≤ b.2.2

/-- Insert `a` into `l` directly before the first element `b` with
`le a b` (so, for a `≤`-style comparison, after every earlier element
it ties with). -/
def insert_le (le : α → α → Bool) (a : α) : List α → List α
  | [] => [a]
  | b :: l => if le a b then a :: b :: l else b :: insert_le le a l

/-- Python's `sorted` with comparison `le`.  `sorted` is a stable sort,
and a stable sort's output is uniquely determined by the input and the
(total preorder) comparison, so the classic stable insertion sort is an
exact model of it. -/
def py_sorted (le : α → α → Bool) : List α → List α
  | [] => []
  | a :: l => insert_le le a (py_sorted le l)

/-- The marker tuple converted to an event dictionary
(preprocess_midi.py lines 218-221). -/
def marker_to_event (ty : MarkerType) (pitch : ℤ) : EventData :=
  match ty with
  | MarkerType.NOTE_ON => EventData.NOTE_ON pitch
  | MarkerType.NOTE_OFF => EventData.NOTE_OFF pitch

/-- The body of the `enumerate` loop of `events_to_events_data`
(preprocess_midi.py lines 209-231) from the current tuple on: emit the
current marker, then the gap delta to the next tuple when positive. -/
def emit_markers : Marker → List Marker → List EventData
  | (ty, pitch, _), [] => [marker_to_event ty pitch]
  | (ty, pitch, t), e' :: rest =>
    marker_to_event ty pitch ::
      ((if e'.2.2 - t > 0 then [EventData.TIME_DELTA (e'.2.2 - t)] else [])
        ++ emit_markers e' rest)

/-- `events_to_events_data` (preprocess_midi.py lines 196-233): sort the
tuples by time, insert a leading delta when the first time is positive,
then interleave markers with positive gap deltas. -/
def events_to_events_data (events : List Marker) : List EventData :=
  match py_sorted marker_le events with
  | [] => []
  | e :: rest =>
    (if e.2.2 > 0 then [EventData.TIME_DELTA e.2.2] else [])
      ++ emit_markers e rest

/-- The marker tuples a single note contributes to a bar
(preprocess_midi.py lines 180-188): onset and offset clipped to the bar
and converted to sixteenth-note units (ticks / 250).  Natural-number
subtraction is exactly the source's `max(0, ...)` clipping. -/
def note_markers (bar_start_tick : ℕ) (n : NoteRec) : List Marker :=
  let start_in_bar : ℕ := n.start - bar_start_tick
  let end_in_bar : ℕ := min TICKS_PER_BAR (n.stop - bar_start_tick)
  [(MarkerType.NOTE_ON, n.pitch, (start_in_bar : ℚ) / 250),
   (MarkerType.NOTE_OFF, n.pitch, (end_in_bar : ℚ) / 250)]

/-- The unsorted marker tuple list of a bar (preprocess_midi.py lines
169-188): notes overlapping the bar, each contributing its clipped
on/off tuples. -/
def bar_marker_tuples (notes : List NoteRec) (bar_start_tick bar_end_tick : ℕ) :
    List Marker :=
  (notes.filter (fun n =>
    decide (n.start < bar_end_tick) && decide (n.stop > bar_start_tick))).flatMap
    (note_markers bar_start_tick)

/-- `notes_to_bar_data` (preprocess_midi.py lines 153-193). -/
def notes_to_bar_data (notes : List NoteRec) (bar_start_tick bar_end_tick : ℕ) :
    BarData :=
  { events := BarEvents.list
      (events_to_events_data (bar_marker_tuples notes bar_start_tick bar_end_tick)) }

/-- The channel→instrument configuration `CHANNEL_TO_INSTRUMENT`
(preprocess_midi.py lines 14-17). -/
def CHANNEL_TO_INSTRUMENT : List (ℕ × String × ℤ) :=
  [(0, "Piano", 0), (3, "Violin", 1)]

/-- The track/bar construction part of `preprocess_midi_file`
(preprocess_midi.py lines 115-148): compute the bar count from the
largest note end tick over every channel's notes and build one track per
configured channel (`channel_notes.get(channel, [])`), splitting its
notes into bars.  The `channel_notes` dictionary is passed as an
association list.  (The earlier message parsing and the channel-presence
check that precede it are modelled separately.) -/
def build_song (title : String) (channel_notes : List (ℕ × List NoteRec)) :
    SongData :=
  let max_tick := (channel_notes.map (fun cn =>
    (cn.2.map (fun n => n.stop)).foldr max 0)).foldr max 0
  let num_bars := max_tick / TICKS_PER_BAR + 1
  { title := title
    tracks := CHANNEL_TO_INSTRUMENT.map (fun ci =>
      { name := ci.2.1
        number := ci.2.2
        bars := (List.range num_bars).map (fun bar_index =>
          notes_to_bar_data ((channel_notes.lookup ci.1).getD [])
            (bar_index * TICKS_PER_BAR) ((bar_index + 1) * TICKS_PER_BAR)) }) }

/-! ## Token encoding (encode.py) -/

/-- A token of the output vocabulary.  The textual rendering
(`"NOTE_ON=61"`, `"TIME_DELTA=16.0"`, ...) is abstracted into tagged
constructors carrying the formatted value. -/
inductive Token where
  | PIECE_START
  | TRACK_START
  | TRACK_END
  | INST (number : ℤ)
  | INST_DRUMS
  | DENSITY (bucket : ℕ)
  | BAR_START
  | BAR_END
  | FILL_IN
  | FILL_START
  | FILL_END
  | NOTE_ON (pitch : ℤ)
  | NOTE_OFF (pitch : ℤ)
  | TIME_DELTA (delta : ℚ)
deriving DecidableEq, Repr

/-- `encode_event_data` (encode.py lines 220-228): pitch-carrying tokens
add the transposition, delta tokens pass the amount through.  The
source's `return None` branch for unknown types is unreachable in the
typed embedding. -/
def encode_event_data (event_data : EventData) (transposition : ℤ) :
    Option Token :=
  match event_data with
  | EventData.NOTE_ON pitch => some (Token.NOTE_ON (pitch + transposition))
  | EventData.NOTE_OFF pitch => some (Token.NOTE_OFF (pitch + transposition))
  | EventData.TIME_DELTA delta => some (Token.TIME_DELTA delta)

/-- `encode_bar_data` (encode.py lines 196-217). -/
def encode_bar_data (bar_data : BarData) (transposition : ℤ)
    (bar_fill : Bool) : List Token :=
  (if bar_fill then [Token.FILL_START] else [Token.BAR_START])
    ++ (match bar_data.events with
        | BarEvents.bar_fill => [Token.FILL_IN]
        | BarEvents.list evs =>
          evs.filterMap (fun ev => encode_event_data ev transposition))
    ++ (if bar_fill then [Token.FILL_END] else [Token.BAR_END])

/-- The `NOTE_ON` count of one bar as in encode.py lines 176-181 and
245-248: a `"bar_fill"` sentinel bar contributes nothing. -/
def bar_note_on_count (bar_data : BarData) : ℕ :=
  match bar_data.events with
  | BarEvents.bar_fill => 0
  | BarEvents.list evs =>
    (evs.filter (fun ev =>
      match ev with
      | EventData.NOTE_ON _ => true
      | _ => false)).length

/-- `encode_track_data` (encode.py lines 157-193). -/
def encode_track_data (track_data : TrackData) (density_bins : List ℚ)
    (bar_start_index bar_end_index : ℕ) (transposition : ℤ) : List Token :=
  let transposition := if track_data.drums then 0 else transposition
  let inst : List Token :=
    if track_data.drums then [Token.INST_DRUMS]
    else [Token.INST track_data.number]
  let window := pySlice track_data.bars bar_start_index bar_end_index
  let note_on_events := (window.map bar_note_on_count).sum
  [Token.TRACK_START] ++ inst
    ++ [Token.DENSITY (np_digitize note_on_events density_bins)]
    ++ window.flatMap (fun b => encode_bar_data b transposition false)
    ++ [Token.TRACK_END]

/-- The random draws one (window, transposition) combination may
consume: the `random.choice` track and bar indices of the bar-fill
branch, and the `random.shuffle` result of the permute branch (as the
shuffled index list). -/
structure RandChoice where
  bf_track : ℕ
  bf_bar : ℕ
  perm : List ℕ

/-- The bar-fill branch (encode.py lines 86-90): pick a random track,
pick a random bar inside the window slice, back its events up and
replace them with the `"bar_fill"` sentinel.  `random.choice` is
modelled by the oracle index taken modulo the list length; an empty
choice (which raises in Python) yields no masking. -/
def bar_fill_mask (song : SongData) (s e : ℕ) (c : RandChoice) :
    SongData × Option BarData :=
  let ti := c.bf_track % song.tracks.length
  match song.tracks[ti]? with
  | none => (song, none)
  | some tr =>
    let w := pySlice tr.bars s e
    if w.length = 0 then (song, none)
    else
      let bi := s + c.bf_bar % w.length
      match tr.bars[bi]? with
      | none => (song, none)
      | some bar =>
        ({ song with
            tracks := song.tracks.mapIdx (fun j t =>
              if j = ti then
                { t with
                    bars := t.bars.mapIdx (fun k b =>
                      if k = bi then { events := BarEvents.bar_fill } else b) }
              else t) },
          some { events := bar.events })

/-- The first track index whose `number` equals the fill target
(encode.py lines 98-102). -/
def find_fill_track_index (tracks : List TrackData) (n : ℤ) : Option ℕ :=
  tracks.findIdx? (fun t => decide (t.number = n))

/-- A track with every bar of the window slice replaced by the
`"bar_fill"` sentinel (encode.py lines 107-111). -/
def mask_track_bars (t : TrackData) (s e : ℕ) : TrackData :=
  { t with
      bars := t.bars.mapIdx (fun j b =>
        if s ≤ j ∧ j < e then { events := BarEvents.bar_fill } else b) }

/-- The track-fill branch (encode.py lines 95-111): locate the track
whose `number` equals `fill_track_number`; if present, back up each bar
of the window slice (each as a fresh `{"events": ...}` record) and
replace it with the sentinel; if absent, do nothing. -/
def track_fill_mask (song : SongData) (s e : ℕ) (fill_track_number : ℤ) :
    SongData × List BarData :=
  match find_fill_track_index song.tracks fill_track_number with
  | none => (song, [])
  | some i =>
    (⟨song.title,
      song.tracks.mapIdx (fun j t => if j = i then mask_track_bars t s e else t)⟩,
     match song.tracks[i]? with
     | some t => (pySlice t.bars s e).map (fun b => { events := b.events })
     | none => [])

/-- The loop body of `encode_song_data` for one (window, transposition)
combination (encode.py lines 74-151), operating on the deep copy: apply
the bar-fill and then the track-fill masking, serialize every track over
the (possibly permuted) index order, then append the bar-fill answer and
the track-fill answer segment. -/
def encode_one_sample (song_data_copy : SongData) (s e : ℕ)
    (transposition : ℤ) (permute bar_fill track_fill : Bool)
    (fill_track_number : ℤ) (density_bins : List ℚ) (c : RandChoice) :
    List Token :=
  let p1 := if bar_fill then bar_fill_mask song_data_copy s e c
    else (song_data_copy, none)
  let p2 := if track_fill then track_fill_mask p1.1 s e fill_track_number
    else (p1.1, [])
  let track_data_indices :=
    if permute then c.perm else List.range p2.1.tracks.length
  let body := track_data_indices.flatMap (fun i =>
    match p2.1.tracks[i]? with
    | some t => encode_track_data t density_bins s e transposition
    | none => [])
  let bar_answer :=
    if bar_fill then
      match p1.2 with
      | some bar_data_fill => encode_bar_data bar_data_fill transposition true
      | none => []
    else []
  let track_answer :=
    if track_fill ∧ p2.2.length > 0 then
      [Token.FILL_START]
        ++ p2.2.flatMap (fun bar_backup =>
          match bar_backup.events with
          | BarEvents.bar_fill => []
          | BarEvents.list evs =>
            evs.filterMap (fun ev => encode_event_data ev transposition))
        ++ [Token.FILL_END]
    else []
  [Token.PIECE_START] ++ body ++ bar_answer ++ track_answer

/-- `itertools.product(l1, l2)`: the first factor varies slowest. -/
def itertools_product (l1 : List α) (l2 : List β) : List (α × β) :=
  l1.flatMap (fun a => l2.map (fun b => (a, b)))

/-- The combination loop of `encode_song_data` in its pure reading: the
deep copy taken each iteration is of the loop-invariant `song_data`
binding, so every combination is encoded from the same value.  The
counter indexes the oracle. -/
def encode_combos (song_data : SongData) (permute : Bool)
    (density_bins : List ℚ) (bar_fill track_fill : Bool)
    (fill_track_number : ℤ) (orc : ℕ → RandChoice) :
    ℕ → List ((ℕ × ℕ) × ℤ) → List (List Token)
  | _, [] => []
  | k, (se, transposition) :: rest =>
    encode_one_sample song_data se.1 se.2 transposition permute bar_fill
        track_fill fill_track_number density_bins (orc k)
      :: encode_combos song_data permute density_bins bar_fill track_fill
        fill_track_number orc (k + 1) rest

/-- `encode_song_data` (encode.py lines 57-154). -/
def encode_song_data (song_data : SongData) (transpositions : List ℤ)
    (permute : Bool) (window_size_bars hop_length_bars : ℕ)
    (density_bins : List ℚ) (bar_fill track_fill : Bool)
    (fill_track_number : ℤ) (orc : ℕ → RandChoice) : List (List Token) :=
  let bars := get_bars_number song_data
  let bar_indices := get_bar_indices bars window_size_bars hop_length_bars
  encode_combos song_data permute density_bins bar_fill track_fill
    fill_track_number orc 0 (itertools_product bar_indices transpositions)

/-- The combination loop with the heap binding of `song_data` made
explicit: the state component is the value the Python variable
`song_data` refers to while the loop runs; each iteration deep-copies
it, masks and encodes the copy, and leaves the state untouched. -/
def encode_combos_st (permute : Bool) (density_bins : List ℚ)
    (bar_fill track_fill : Bool) (fill_track_number : ℤ)
    (orc : ℕ → RandChoice) :
    ℕ → List ((ℕ × ℕ) × ℤ) → List (List Token) × SongData →
      List (List Token) × SongData
  | _, [], st => st
  | k, (se, transposition) :: rest, st =>
    let song_data_copy := st.2
    let toks := encode_one_sample song_data_copy se.1 se.2 transposition
      permute bar_fill track_fill fill_track_number density_bins (orc k)
    encode_combos_st permute density_bins bar_fill track_fill
      fill_track_number orc (k + 1) rest (st.1 ++ [toks], st.2)

/-- `encode_song_data` with the mutable `song_data` binding threaded as
explicit state, returning the collected sequences and the value
`song_data` holds after the call. -/
def encode_song_data_st (song_data : SongData) (transpositions : List ℤ)
    (permute : Bool) (window_size_bars hop_length_bars : ℕ)
    (density_bins : List ℚ) (bar_fill track_fill : Bool)
    (fill_track_number : ℤ) (orc : ℕ → RandChoice) :
    List (List Token) × SongData :=
  encode_combos_st permute density_bins bar_fill track_fill
    fill_track_number orc 0
    (itertools_product
      (get_bar_indices (get_bars_number song_data) window_size_bars
        hop_length_bars) transpositions)
    ([], song_data)

/-! ## Density estimation (encode.py lines 231-259) -/

/-- The multiset of nonzero per-(track, window) `NOTE_ON` counts over
the corpus (encode.py lines 233-252). -/
def density_distribution (songs_data : List SongData)
    (window_size_bars hop_length_bars : ℕ) : List ℕ :=
  songs_data.flatMap (fun song_data =>
    let bars := get_bars_number song_data
    let bar_indices := get_bar_indices bars window_size_bars hop_length_bars
    song_data.tracks.flatMap (fun track_data =>
      bar_indices.flatMap (fun se =>
        let count := ((pySlice track_data.bars se.1 se.2).map
          bar_note_on_count).sum
        if count ≠ 0 then [count] else [])))

/-- `np.percentile(dist, q)` with the default linear interpolation:
sort ascending, take the fractional index `q/100 * (n-1)` and
interpolate between its neighbours.  On an empty input numpy raises;
modelled as `none`. -/
def np_percentile (dist : List ℕ) (q : ℕ) : Option ℚ :=
  match py_sorted (fun a b => decide (a ≤ b)) dist with
  | [] => none
  | sorted@(_ :: _) =>
    let n := sorted.length
    let pos : ℚ := (q : ℚ) * ((n : ℚ) - 1) / 100
    let f : ℕ := pos.floor.toNat
    let lo : ℚ := (sorted.getD f 0 : ℕ)
    let hi : ℚ := (sorted.getD (min (f + 1) (n - 1)) 0 : ℕ)
    some (lo + (pos - (f : ℚ)) * (hi - lo))

/-- The quantile loop of `get_density_bins` (encode.py lines 255-259):
a failing percentile (empty distribution) aborts with an error. -/
def percentile_fold (dist : List ℕ) : List ℕ → Except String (List ℚ)
  | [] => Except.ok []
  | q :: qs =>
    match np_percentile dist q with
    | none => Except.error "empty distribution"
    | some v =>
      match percentile_fold dist qs with
      | Except.ok vs => Except.ok (v :: vs)
      | Except.error msg => Except.error msg

/-- `get_density_bins` (encode.py lines 231-259).  `bins = 0` raises
`ZeroDivisionError` in Python (`100 // bins`), modelled as an error; a
step of zero in `range` (`bins > 100`) raises in Python and is excluded
by hypotheses wherever it matters. -/
def get_density_bins (songs_data : List SongData)
    (window_size_bars hop_length_bars bins : ℕ) : Except String (List ℚ) :=
  if bins = 0 then Except.error "division by zero"
  else
    let distribution :=
      density_distribution songs_data window_size_bars hop_length_bars
    percentile_fold distribution (pyRange (100 / bins) 100 (100 / bins))

/-! ## Derived definitions used by the statements -/

/-- The number of events a bar dictionary carries: the length of its
event list, zero for the `"bar_fill"` sentinel (which holds no event
data). -/
def bar_event_count (bar_data : BarData) : ℕ :=
  match bar_data.events with
  | BarEvents.bar_fill => 0
  | BarEvents.list evs => evs.length

/-- Each `NOTE_ON`/`NOTE_OFF` marker of an encoded bar paired with the
cumulative sum of the `TIME_DELTA` amounts preceding it (the
reconstructed time of the marker relative to bar start). -/
def markers_cum (acc : ℚ) : List EventData → List Marker
  | [] => []
  | EventData.TIME_DELTA d :: es => markers_cum (acc + d) es
  | EventData.NOTE_ON pitch :: es =>
    (MarkerType.NOTE_ON, pitch, acc) :: markers_cum acc es
  | EventData.NOTE_OFF pitch :: es =>
    (MarkerType.NOTE_OFF, pitch, acc) :: markers_cum acc es

/-! ## Concrete instances used by witnesses -/

/-- The channel notes of the end-to-end scenario: Piano (channel 0)
holds one pitch-60 note from tick 0 to tick 4000, Violin (channel 3)
holds nothing. -/
def c1_channel_notes : List (ℕ × List NoteRec) :=
  [(0, [⟨60, 0, 4000⟩]), (3, [])]

/-- The two-track song of the end-to-end scenario, built through the
bar-construction logic of `preprocess_midi_file`. -/
def c1_song : SongData := build_song "c1" c1_channel_notes

/-- An oracle draw; irrelevant whenever neither bar-fill nor permute
consumes randomness. -/
def orc0 : ℕ → RandChoice := fun _ => ⟨0, 0, []⟩

/-- A one-track, two-bar song. -/
def two_bar_song : SongData :=
  ⟨"w", [⟨"Piano", 0, false, [⟨BarEvents.list []⟩, ⟨BarEvents.list []⟩]⟩]⟩

/-- A two-track song whose number-1 track holds events, for the
track-fill integrity witness. -/
def c4_song : SongData :=
  ⟨"c4",
   [⟨"Piano", 0, false, [⟨BarEvents.list [EventData.NOTE_ON 60]⟩]⟩,
    ⟨"Violin", 1, false,
     [⟨BarEvents.list
        [EventData.NOTE_ON 70, EventData.TIME_DELTA 4,
         EventData.NOTE_OFF 70]⟩,
      ⟨BarEvents.list []⟩]⟩]⟩

/-- A drum-flagged track with one pitch-carrying bar. -/
def drum_track : TrackData :=
  ⟨"Drums", 9, true,
   [⟨BarEvents.list [EventData.NOTE_ON 36, EventData.NOTE_OFF 36]⟩]⟩

/-- A non-drum track with one pitch-carrying bar. -/
def piano_track : TrackData :=
  ⟨"Piano", 0, false,
   [⟨BarEvents.list [EventData.NOTE_ON 60, EventData.NOTE_OFF 60]⟩]⟩

/-- An extraction state with a pending note-on for `(0, 60)` recorded at
tick 5. -/
def c5_state : ExtractState :=
  ⟨20, fun k => if k = (0, 60) then some 5 else none, fun _ => []⟩

/-- A second note-on for `(0, 60)`, velocity 100, ten ticks later. -/
def c5_msg_on : Msg := ⟨10, MsgType.note_on, 0, 60, 100⟩

/-- A note-off for `(0, 60)` seven ticks after that. -/
def c5_msg_off : Msg := ⟨7, MsgType.note_off, 0, 60, 0⟩

/-! ## Helper lemmas -/

lemma zip_range'_mem (step : ℕ) :
    ∀ (n1 n2 s1 s2 : ℕ) (p : ℕ × ℕ),
      p ∈ List.zip (List.range' s1 n1 step) (List.range' s2 n2 step) →
      ∃ i, i < n1 ∧ i < n2 ∧ p = (s1 + step * i, s2 + step * i) := by
  intro n1
  induction n1 with
  | zero => intro n2 s1 s2 p hp; simp at hp
  | succ m ih =>
    intro n2 s1 s2 p hp
    cases n2 with
    | zero => simp at hp
    | succ k =>
      rw [List.range'_succ, List.range'_succ, List.zip_cons_cons] at hp
      rcases List.mem_cons.1 hp with h0 | h1
      · exact ⟨0, by omega, by omega, by simp [h0]⟩
      · obtain ⟨i, hi1, hi2, hpe⟩ := ih k (s1 + step) (s2 + step) p h1
        refine ⟨i + 1, by omega, by omega, ?_⟩
        rw [hpe, Nat.mul_succ]
        congr 1 <;> omega

lemma get_bar_indices_mem {bars w h : ℕ} {p : ℕ × ℕ}
    (hp : p ∈ get_bar_indices bars w h) : p.2 - p.1 = w ∧ p.2 < bars := by
  unfold get_bar_indices pyRange at hp
  rcases Nat.eq_zero_or_pos h with h0 | h0
  · subst h0; simp at hp
  · obtain ⟨i, hi1, hi2, hpe⟩ := zip_range'_mem h _ _ _ _ p hp
    have hub : h * i + h ≤ bars - w + h - 1 := by
      have h1 : i + 1 ≤ (bars - w + h - 1) / h := hi2
      have h2 : (i + 1) * h ≤ ((bars - w + h - 1) / h) * h :=
        Nat.mul_le_mul_right h h1
      have h3 : ((bars - w + h - 1) / h) * h ≤ bars - w + h - 1 :=
        Nat.div_mul_le_self _ _
      calc h * i + h = (i + 1) * h := by ring
        _ ≤ ((bars - w + h - 1) / h) * h := h2
        _ ≤ bars - w + h - 1 := h3
    rw [hpe]
    generalize h * i = t at hub
    constructor <;> omega

lemma get_bar_indices_nil {bars w hlb : ℕ} (hb : bars ≤ w) :
    get_bar_indices bars w hlb = [] := by
  unfold get_bar_indices pyRange
  have h1 : bars - w + hlb - 1 = hlb - 1 := by omega
  rw [h1]
  have h2 : (hlb - 1) / hlb = 0 := by
    rcases Nat.eq_zero_or_pos hlb with h0 | h0
    · simp [h0]
    · exact Nat.div_eq_of_lt (by omega)
  rw [h2]
  simp

/-! ## Claim theorems -/

/-- C2 counterexample: contrary to the claim's second equation,
`windows(4, 4, 2)` is empty — the end sequence `range(4, 4, 2)` already
excludes `total_bars` itself, so the single full window `(0, 4)` is
dropped. -/
theorem c2_windows_counterexample : get_bar_indices 4 4 2 ≠ [(0, 4)] := by
  decide

/-- C2 (amended): `windows(10,4,2) = [(0,4),(2,6),(4,8)]`,
`windows(4,4,2) = []` and `windows(3,4,2) = []`: a window reaching or
exceeding `total_bars` is dropped entirely, never clipped. -/
theorem c2_windows_amended :
    get_bar_indices 10 4 2 = [(0, 4), (2, 6), (4, 8)] ∧
    get_bar_indices 4 4 2 = [] ∧ get_bar_indices 3 4 2 = [] := by
  decide

/-- C3 counterexample: for ascending edges `[1, 2]` a count of exactly 1
falls in bucket 1 under `np.digitize` (default `right=False`), not in
the lower-indexed bucket 0 that the claim's `count <= edges[k]` rule
predicts. -/
theorem c3_digitize_counterexample :
    np_digitize 1 [1, 2] = 1 ∧ digitize_spec 1 [1, 2] = 0 := by
  constructor <;> norm_num [np_digitize, digitize_spec, List.findIdx?]

/-- C3 (amended): for ascending edges, `np.digitize` maps a count to the
smallest bucket index `k` such that `count < edges[k]` (strictly), so a
count exactly equal to an edge falls in the higher-indexed bucket, and a
count greater than or equal to all edges falls in the last bucket: all
edges before the returned index are `≤ count` and the edge at the
returned index, when it exists, is `> count`. -/
theorem c3_digitize_amended (x : ℕ) (bins : List ℚ)
    (hs : List.Sorted (· ≤ ·) bins) :
    np_digitize x bins ≤ bins.length ∧
    (∀ j, j < np_digitize x bins → ∀ e, bins[j]? = some e → e ≤ (x : ℚ)) ∧
    (∀ e, bins[np_digitize x bins]? = some e → (x : ℚ) < e) := by
  induction bins with
  | nil => simp [np_digitize]
  | cons b bs ih =>
    rw [List.sorted_cons] at hs
    obtain ⟨hb, hbs⟩ := hs
    obtain ⟨ih1, ih2, ih3⟩ := ih hbs
    by_cases hbx : b ≤ (x : ℚ)
    · have hd : np_digitize x (b :: bs) = np_digitize x bs + 1 := by
        simp [np_digitize, List.filter_cons, hbx]
      refine ⟨by simp only [hd, List.length_cons]; omega, ?_, ?_⟩
      · intro j hj e he
        cases j with
        | zero =>
          simp only [List.getElem?_cons_zero, Option.some.injEq] at he
          exact he ▸ hbx
        | succ k =>
          rw [hd] at hj
          exact ih2 k (by omega) e (by simpa using he)
      · intro e he
        rw [hd] at he
        exact ih3 e (by simpa using he)
    · have hd : np_digitize x (b :: bs) = 0 := by
        have hall : ∀ e ∈ b :: bs, ¬ (e ≤ (x : ℚ)) := by
          intro e he
          rcases List.mem_cons.1 he with rfl | he'
          · exact hbx
          · exact fun hle => hbx (le_trans (hb e he') hle)
        simp only [np_digitize]
        rw [List.filter_eq_nil_iff.2 (by simpa using hall)]
        rfl
      refine ⟨by omega, ?_, ?_⟩
      · intro j hj
        rw [hd] at hj
        omega
      · intro e he
        rw [hd] at he
        simp only [List.getElem?_cons_zero, Option.some.injEq] at he
        exact he ▸ lt_of_not_le hbx

/-- Witness for the amended C3 theorem at count 2, edges `[1, 3]`. -/
theorem c3_digitize_amended_witness :
    List.Sorted (· ≤ ·) [(1 : ℚ), 3] ∧
    (np_digitize 2 [(1 : ℚ), 3] ≤ ([(1 : ℚ), 3]).length ∧
      (∀ j, j < np_digitize 2 [(1 : ℚ), 3] →
        ∀ e, ([(1 : ℚ), 3])[j]? = some e → e ≤ ((2 : ℕ) : ℚ)) ∧
      (∀ e, ([(1 : ℚ), 3])[np_digitize 2 [(1 : ℚ), 3]]? = some e →
        ((2 : ℕ) : ℚ) < e)) :=
  ⟨by decide, c3_digitize_amended 2 [1, 3] (by decide)⟩

/-- C10: every window pair satisfies `end - start = window_size_bars`
and `end ≤ total_bars - 1` (so a window ending exactly at `total_bars`
never occurs and the final bar lies in no window), and a song whose bar
count is at most `window_size_bars` yields zero windows and therefore
zero samples. -/
theorem c10_window_invariants (bars window_size_bars hop_length_bars : ℕ)
    (p : ℕ × ℕ) (song : SongData) (transpositions : List ℤ) (permute : Bool)
    (density_bins : List ℚ) (bar_fill track_fill : Bool)
    (fill_track_number : ℤ) (orc : ℕ → RandChoice)
    (hp : p ∈ get_bar_indices bars window_size_bars hop_length_bars)
    (hsong : get_bars_number song ≤ window_size_bars) :
    p.2 - p.1 = window_size_bars ∧ p.2 ≤ bars - 1 ∧
    get_bar_indices (get_bars_number song) window_size_bars
      hop_length_bars = [] ∧
    encode_song_data song transpositions permute window_size_bars
      hop_length_bars density_bins bar_fill track_fill fill_track_number
      orc = [] := by
  obtain ⟨h1, h2⟩ := get_bar_indices_mem hp
  refine ⟨h1, by omega, get_bar_indices_nil hsong, ?_⟩
  show encode_combos song permute density_bins bar_fill track_fill
    fill_track_number orc 0
    (itertools_product
      (get_bar_indices (get_bars_number song) window_size_bars
        hop_length_bars) transpositions) = []
  rw [get_bar_indices_nil hsong]
  rfl

/-- Witness for C10 at `bars = 10`, window 4, hop 2, `p = (0, 4)` and a
two-bar song. -/
theorem c10_window_invariants_witness :
    (0, 4) ∈ get_bar_indices 10 4 2 ∧ get_bars_number two_bar_song ≤ 4 ∧
    ((0, 4).2 - (0, 4).1 = 4 ∧ (0, 4).2 ≤ 10 - 1 ∧
      get_bar_indices (get_bars_number two_bar_song) 4 2 = [] ∧
      encode_song_data two_bar_song [0] false 4 2 [] false true 1
        orc0 = []) :=
  ⟨by decide, by decide,
    c10_window_invariants 10 4 2 (0, 4) two_bar_song [0] false [] false
      true 1 orc0 (by decide) (by decide)⟩

/-- C9: when the multiset of nonzero per-(track, window) `NOTE_ON`
counts over the corpus is empty, density-bin computation does not
return edges: the first percentile evaluation fails (numpy raises on an
empty distribution), aborting the run.  `2 ≤ bins ≤ 100` is the
meaningful range of the configured bin count (the pipeline uses 5). -/
theorem c9_empty_distribution_fatal (songs_data : List SongData)
    (window_size_bars hop_length_bars bins : ℕ)
    (hdist : density_distribution songs_data window_size_bars
      hop_length_bars = [])
    (h2 : 2 ≤ bins) (h100 : bins ≤ 100) :
    get_density_bins songs_data window_size_bars hop_length_bars bins =
      Except.error "empty distribution" := by
  unfold get_density_bins
  rw [if_neg (by omega), hdist]
  have hstep1 : 1 ≤ 100 / bins := (Nat.one_le_div_iff (by omega)).2 h100
  have hstep50 : 100 / bins ≤ 50 := by
    calc 100 / bins ≤ 100 / 2 := Nat.div_le_div_left h2 (by omega)
      _ = 50 := by norm_num
  have hne : pyRange (100 / bins) 100 (100 / bins) ≠ [] := by
    unfold pyRange
    have h99 : 100 - 100 / bins + 100 / bins - 1 = 99 := by omega
    rw [h99]
    have hn : 1 ≤ 99 / (100 / bins) :=
      (Nat.one_le_div_iff (by omega)).2 (by omega)
    intro hcon
    have := congrArg List.length hcon
    simp at this
    omega
  obtain ⟨q, qs, hqs⟩ := List.exists_cons_of_ne_nil hne
  rw [hqs]
  rfl

/-- Witness for C9: an empty corpus with the pipeline's configuration
(window 4, hop 2, 5 bins). -/
theorem c9_empty_distribution_fatal_witness :
    density_distribution [] 4 2 = [] ∧
    get_density_bins [] 4 2 5 = Except.error "empty distribution" :=
  ⟨rfl, c9_empty_distribution_fatal [] 4 2 5 rfl (by decide) (by decide)⟩

/-- C8: a drum-flagged track is encoded with the `INST=DRUMS` token and
its token sequence — in particular every pitch-carrying token — is
identical across two encodings differing only in the transposition (the
effective transposition is forced to zero); a non-drum track's
instrument token carries the track's logical number. -/
theorem c8_drums_transposition_invariant (track_data : TrackData)
    (density_bins : List ℚ) (bar_start_index bar_end_index : ℕ)
    (t1 t2 : ℤ) :
    (track_data.drums = true →
      encode_track_data track_data density_bins bar_start_index
          bar_end_index t1 =
        encode_track_data track_data density_bins bar_start_index
          bar_end_index t2 ∧
      (encode_track_data track_data density_bins bar_start_index
          bar_end_index t1)[1]? = some Token.INST_DRUMS) ∧
    (track_data.drums = false →
      (encode_track_data track_data density_bins bar_start_index
          bar_end_index t1)[1]? = some (Token.INST track_data.number)) := by
  constructor
  · intro hd
    unfold encode_track_data
    rw [hd]
    exact ⟨rfl, rfl⟩
  · intro hd
    unfold encode_track_data
    rw [hd]
    rfl

/-- Witness for C8: a drum track encoded at transpositions 3 and 7, and
a piano track at transposition 3. -/
theorem c8_drums_transposition_invariant_witness :
    ((encode_track_data drum_track [] 0 1 3 =
        encode_track_data drum_track [] 0 1 7 ∧
      (encode_track_data drum_track [] 0 1 3)[1]? =
        some Token.INST_DRUMS) ∧
     (encode_track_data piano_track [] 0 1 3)[1]? =
       some (Token.INST piano_track.number)) :=
  ⟨(c8_drums_transposition_invariant drum_track [] 0 1 3 7).1 rfl,
   (c8_drums_transposition_invariant piano_track [] 0 1 3 7).2 rfl⟩

/-- C4: when the fill track is present, the backed-up bars of the
window carry exactly as many events in total as those bars held before
the mutation, and every bar of the fill track inside the window holds,
after the mutation, exactly the placeholder sentinel (which carries no
event data). -/
theorem c4_track_fill_integrity (song : SongData) (s e : ℕ)
    (fill_track_number : ℤ) (i : ℕ) (t : TrackData)
    (hi : find_fill_track_index song.tracks fill_track_number = some i)
    (ht : song.tracks[i]? = some t) :
    (((track_fill_mask song s e fill_track_number).2.map
        bar_event_count).sum =
      ((pySlice t.bars s e).map bar_event_count).sum) ∧
    (∀ t', (track_fill_mask song s e fill_track_number).1.tracks[i]? =
        some t' →
      ∀ j, s ≤ j → j < e → ∀ b, t'.bars[j]? = some b →
        b.events = BarEvents.bar_fill) := by
  unfold track_fill_mask
  rw [hi]
  dsimp only
  constructor
  · rw [ht]
    dsimp only
    rw [List.map_map]
    have hfun : (bar_event_count ∘ fun b => BarData.mk b.events) =
        bar_event_count := rfl
    rw [hfun]
  · intro t' ht' j hs hj b hb
    simp only [List.getElem?_mapIdx, ht, Option.map_some'] at ht'
    rw [if_pos trivial] at ht'
    injection ht' with ht''
    subst ht''
    unfold mask_track_bars at hb
    dsimp only at hb
    simp only [List.getElem?_mapIdx] at hb
    rcases hmem : t.bars[j]? with _ | b0
    · rw [hmem] at hb; simp at hb
    · rw [hmem] at hb
      simp only [Option.map_some', Option.some.injEq] at hb
      rw [← hb]
      simp [hs, hj]

/-- Witness for C4 on `c4_song` with fill track number 1, window
`[0, 1)`. -/
theorem c4_track_fill_integrity_witness :
    find_fill_track_index c4_song.tracks 1 = some 1 ∧
    c4_song.tracks[1]? = some c4_song.tracks[1] ∧
    ((((track_fill_mask c4_song 0 1 1).2.map bar_event_count).sum =
        ((pySlice c4_song.tracks[1].bars 0 1).map bar_event_count).sum) ∧
     (∀ t', (track_fill_mask c4_song 0 1 1).1.tracks[1]? = some t' →
       ∀ j, 0 ≤ j → j < 1 → ∀ b, t'.bars[j]? = some b →
         b.events = BarEvents.bar_fill)) :=
  ⟨by decide, by decide,
    c4_track_fill_integrity c4_song 0 1 1 1 c4_song.tracks[1]
      (by decide) (by decide)⟩

/-- The state-threaded combination loop leaves the `song_data` binding
untouched and produces, appended to the accumulator, exactly the pure
per-combination encodings of that untouched value. -/
lemma encode_combos_st_spec (permute : Bool) (density_bins : List ℚ)
    (bar_fill track_fill : Bool) (fill_track_number : ℤ)
    (orc : ℕ → RandChoice) :
    ∀ (combos : List ((ℕ × ℕ) × ℤ)) (k : ℕ) (acc : List (List Token))
      (song : SongData),
      encode_combos_st permute density_bins bar_fill track_fill
          fill_track_number orc k combos (acc, song) =
        (acc ++ encode_combos song permute density_bins bar_fill
          track_fill fill_track_number orc k combos, song) := by
  intro combos
  induction combos with
  | nil => intro k acc song; simp [encode_combos_st, encode_combos]
  | cons c rest ih =>
    intro k acc song
    obtain ⟨se, transposition⟩ := c
    rw [encode_combos_st, encode_combos, ih]
    simp

/-- C7: encoding never mutates its input: after `encode_song_data`
returns, the `song_data` binding holds a value deep-equal to the one it
held before the call, and every (window, transposition) combination's
sample is computed from that original value (each masking operates on a
private deep copy). -/
theorem c7_no_input_mutation (song_data : SongData)
    (transpositions : List ℤ) (permute : Bool)
    (window_size_bars hop_length_bars : ℕ) (density_bins : List ℚ)
    (bar_fill track_fill : Bool) (fill_track_number : ℤ)
    (orc : ℕ → RandChoice) :
    (encode_song_data_st song_data transpositions permute window_size_bars
        hop_length_bars density_bins bar_fill track_fill
        fill_track_number orc).2 = song_data ∧
    (encode_song_data_st song_data transpositions permute window_size_bars
        hop_length_bars density_bins bar_fill track_fill
        fill_track_number orc).1 =
      encode_song_data song_data transpositions permute window_size_bars
        hop_length_bars density_bins bar_fill track_fill
        fill_track_number orc := by
  unfold encode_song_data_st encode_song_data
  rw [encode_combos_st_spec]
  exact ⟨rfl, by simp⟩

/-- C5: a note-on for a `(channel, pitch)` pair that already has a
pending entry overwrites it — the earlier pending entry is discarded
without emitting any note — and a subsequent note-off (or zero-velocity
note-on) for that pair emits exactly one note whose start is the
*later* note-on's tick and whose end is the current tick, clearing the
pending entry. -/
theorem c5_pending_note_on_overwrite (st : ExtractState) (m m' : Msg)
    (hm : m.type = MsgType.note_on) (hv : m.velocity > 0)
    (hm' : m'.type = MsgType.note_off ∨
      (m'.type = MsgType.note_on ∧ m'.velocity = 0))
    (hc : m'.channel = m.channel) (hn : m'.note = m.note) :
    (∀ c, (process_msg st m).channel_notes c = st.channel_notes c) ∧
    (process_msg st m).note_on_times (m.channel, m.note) =
      some (st.current_tick + m.time) ∧
    (process_msg (process_msg st m) m').channel_notes m.channel =
      st.channel_notes m.channel ++
        [⟨m.note, st.current_tick + m.time,
          st.current_tick + m.time + m'.time⟩] ∧
    (process_msg (process_msg st m) m').note_on_times (m.channel, m.note) =
      none := by
  have hstep1 : process_msg st m =
      { st with
        current_tick := st.current_tick + m.time
        note_on_times := fun k =>
          if k = (m.channel, m.note) then some (st.current_tick + m.time)
          else st.note_on_times k } := by
    unfold process_msg
    rw [if_pos ⟨hm, hv⟩]
  have hnot : ¬ (m'.type = MsgType.note_on ∧ m'.velocity > 0) := by
    rcases hm' with h | ⟨h1, h2⟩
    · intro hcon; rw [h] at hcon; exact absurd hcon.1 (by simp)
    · intro hcon; omega
  refine ⟨?_, ?_, ?_, ?_⟩
  · intro c; rw [hstep1]
  · rw [hstep1]; simp
  · rw [hstep1]
    unfold process_msg
    rw [if_neg hnot, if_pos hm']
    simp only [hc, hn, if_pos rfl]
    simp
  · rw [hstep1]
    unfold process_msg
    rw [if_neg hnot, if_pos hm']
    simp only [hc, hn, if_pos rfl]
    simp

/-- Witness for C5: a pending entry for `(0, 60)` at tick 5 is
overwritten by a note-on at tick 30, and the following note-off at tick
37 emits the single note `(60, 30, 37)`. -/
theorem c5_pending_note_on_overwrite_witness :
    c5_msg_on.type = MsgType.note_on ∧ c5_msg_on.velocity > 0 ∧
    ((∀ c, (process_msg c5_state c5_msg_on).channel_notes c =
        c5_state.channel_notes c) ∧
      (process_msg c5_state c5_msg_on).note_on_times
          (c5_msg_on.channel, c5_msg_on.note) =
        some (c5_state.current_tick + c5_msg_on.time) ∧
      (process_msg (process_msg c5_state c5_msg_on)
          c5_msg_off).channel_notes c5_msg_on.channel =
        c5_state.channel_notes c5_msg_on.channel ++
          [⟨c5_msg_on.note, c5_state.current_tick + c5_msg_on.time,
            c5_state.current_tick + c5_msg_on.time + c5_msg_off.time⟩] ∧
      (process_msg (process_msg c5_state c5_msg_on)
          c5_msg_off).note_on_times (c5_msg_on.channel, c5_msg_on.note) =
        none) :=
  ⟨rfl, by decide,
    c5_pending_note_on_overwrite c5_state c5_msg_on c5_msg_off rfl
      (by decide) (Or.inl rfl) rfl rfl⟩

lemma mem_insert_le {le : α → α → Bool} {a x : α} :
    ∀ {l : List α}, x ∈ insert_le le a l ↔ x = a ∨ x ∈ l := by
  intro l
  induction l with
  | nil => simp [insert_le]
  | cons b t ih =>
    rw [insert_le]
    split
    · simp [List.mem_cons]
    · simp only [List.mem_cons, ih]
      tauto

lemma pairwise_insert_le {le : α → α → Bool}
    (htrans : ∀ a b c, le a b = true → le b c = true → le a c = true)
    (htot : ∀ a b, le a b = true ∨ le b a = true) (a : α) :
    ∀ {l : List α}, l.Pairwise (fun x y => le x y = true) →
      (insert_le le a l).Pairwise (fun x y => le x y = true) := by
  intro l
  induction l with
  | nil => intro _; simp [insert_le]
  | cons b t ih =>
    intro hp
    rw [List.pairwise_cons] at hp
    obtain ⟨hb, ht⟩ := hp
    rw [insert_le]
    split
    · next hab =>
      rw [List.pairwise_cons]
      refine ⟨?_, List.pairwise_cons.2 ⟨hb, ht⟩⟩
      intro x hx
      rcases List.mem_cons.1 hx with rfl | hx'
      · exact hab
      · exact htrans a b x hab (hb x hx')
    · next hab =>
      have hba : le b a = true := (htot a b).resolve_left (by simpa using hab)
      rw [List.pairwise_cons]
      refine ⟨?_, ih ht⟩
      intro x hx
      rcases mem_insert_le.1 hx with rfl | hx'
      · exact hba
      · exact hb x hx'

lemma pairwise_py_sorted {le : α → α → Bool}
    (htrans : ∀ a b c, le a b = true → le b c = true → le a c = true)
    (htot : ∀ a b, le a b = true ∨ le b a = true) :
    ∀ (l : List α), (py_sorted le l).Pairwise (fun x y => le x y = true) := by
  intro l
  induction l with
  | nil => simp [py_sorted]
  | cons a t ih => exact pairwise_insert_le htrans htot a ih

lemma mem_py_sorted {le : α → α → Bool} {x : α} :
    ∀ {l : List α}, x ∈ py_sorted le l ↔ x ∈ l := by
  intro l
  induction l with
  | nil => simp [py_sorted]
  | cons a t ih =>
    rw [py_sorted]
    rw [mem_insert_le]
    simp [ih]

lemma marker_le_trans : ∀ a b c : Marker,
    marker_le a b = true → marker_le b c = true → marker_le a c = true := by
  intro a b c
  simp only [marker_le, decide_eq_true_eq]
  exact le_trans

lemma marker_le_total : ∀ a b : Marker,
    marker_le a b = true ∨ marker_le b a = true := by
  intro a b
  simp only [marker_le, decide_eq_true_eq]
  exact le_total _ _

lemma markers_cum_emit : ∀ (rest : List Marker) (e : Marker),
    List.Chain' (fun a b : Marker => a.2.2 ≤ b.2.2) (e :: rest) →
    markers_cum e.2.2 (emit_markers e rest) = e :: rest := by
  intro rest
  induction rest with
  | nil =>
    intro e _
    obtain ⟨ty, pitch, t⟩ := e
    cases ty <;> simp [emit_markers, marker_to_event, markers_cum]
  | cons e' rest' ih =>
    intro e hch
    have hle : e.2.2 ≤ e'.2.2 := (List.chain'_cons.1 hch).1
    have htail := (List.chain'_cons.1 hch).2
    obtain ⟨ty, pitch, t⟩ := e
    by_cases hgt : e'.2.2 - t > 0
    · have hsum : t + (e'.2.2 - t) = e'.2.2 := by ring
      cases ty <;>
        simp only [emit_markers, if_pos hgt, marker_to_event,
          List.cons_append, List.singleton_append, List.nil_append,
          markers_cum, hsum, ih e' htail]
    · have heq : e'.2.2 = t := by
        have h1 : e'.2.2 - t ≤ 0 := not_lt.1 hgt
        have h2 : (t : ℚ) ≤ e'.2.2 := hle
        have := sub_nonpos.1 h1
        linarith
      cases ty <;>
        · simp only [emit_markers, if_neg hgt, marker_to_event,
            List.nil_append, markers_cum]
          rw [← heq]
          rw [ih e' htail]

lemma emit_markers_delta_pos : ∀ (rest : List Marker) (e : Marker) (d : ℚ),
    EventData.TIME_DELTA d ∈ emit_markers e rest → 0 < d := by
  intro rest
  induction rest with
  | nil =>
    intro e d hd
    obtain ⟨ty, pitch, t⟩ := e
    cases ty <;> simp [emit_markers, marker_to_event] at hd
  | cons e' rest' ih =>
    intro e d hd
    obtain ⟨ty, pitch, t⟩ := e
    by_cases hgt : e'.2.2 - t > 0
    · cases ty <;>
        · simp only [emit_markers, if_pos hgt, marker_to_event,
            List.cons_append, List.singleton_append, List.mem_cons,
            EventData.TIME_DELTA.injEq, reduceCtorEq, false_or] at hd
          rcases hd with rfl | hd'
          · exact hgt
          · exact ih e' d hd'
    · cases ty <;>
        · simp only [emit_markers, if_neg hgt, marker_to_event,
            List.nil_append, List.mem_cons, reduceCtorEq, false_or] at hd
          exact ih e' d hd

lemma markers_cum_events_to_events_data (l : List Marker)
    (hnn : ∀ x ∈ l, 0 ≤ x.2.2) :
    markers_cum 0 (events_to_events_data l) = py_sorted marker_le l := by
  have hch : List.Chain' (fun a b : Marker => a.2.2 ≤ b.2.2)
      (py_sorted marker_le l) := by
    apply List.Pairwise.chain'
    apply List.Pairwise.imp _
      (pairwise_py_sorted marker_le_trans marker_le_total l)
    intro a b h
    simpa [marker_le] using h
  cases hs : py_sorted marker_le l with
  | nil =>
    have hev : events_to_events_data l = [] := by
      unfold events_to_events_data
      rw [hs]
    rw [hev]
    rfl
  | cons e rest =>
    have hev : events_to_events_data l =
        (if e.2.2 > 0 then [EventData.TIME_DELTA e.2.2] else [])
          ++ emit_markers e rest := by
      unfold events_to_events_data
      rw [hs]
    rw [hs] at hch
    have he_nn : 0 ≤ e.2.2 :=
      hnn e (mem_py_sorted.1 (hs ▸ List.mem_cons_self e rest))
    rw [hev]
    by_cases hpos : e.2.2 > 0
    · rw [if_pos hpos, List.singleton_append, markers_cum, zero_add]
      exact markers_cum_emit rest e hch
    · have h0 : e.2.2 = 0 := le_antisymm (not_lt.1 hpos) he_nn
      rw [if_neg hpos, List.nil_append,
        show (0 : ℚ) = e.2.2 from h0.symm]
      exact markers_cum_emit rest e hch

lemma events_to_events_data_delta_pos (l : List Marker) (d : ℚ)
    (hd : EventData.TIME_DELTA d ∈ events_to_events_data l) : 0 < d := by
  cases hs : py_sorted marker_le l with
  | nil =>
    have hev : events_to_events_data l = [] := by
      unfold events_to_events_data
      rw [hs]
    rw [hev] at hd
    simp at hd
  | cons e rest =>
    have hev : events_to_events_data l =
        (if e.2.2 > 0 then [EventData.TIME_DELTA e.2.2] else [])
          ++ emit_markers e rest := by
      unfold events_to_events_data
      rw [hs]
    rw [hev] at hd
    by_cases hpos : e.2.2 > 0
    · rw [if_pos hpos, List.singleton_append] at hd
      rcases List.mem_cons.1 hd with heq | hd'
      · injection heq with h
        exact h ▸ hpos
      · exact emit_markers_delta_pos rest e d hd'
    · rw [if_neg hpos, List.nil_append] at hd
      exact emit_markers_delta_pos rest e d hd

/-- C6: for every bar the extractor produces, pairing each
`NOTE_ON`/`NOTE_OFF` marker with the cumulative sum of the `TIME_DELTA`
amounts preceding it recovers exactly the time-sorted marker tuples of
the bar — i.e. each marker's reconstructed time is its clipped
onset/offset tick divided by 250 — and every emitted `TIME_DELTA` is
strictly positive (zero-length gaps emit no delta, and a leading delta
appears exactly when the first marker's time is positive). -/
theorem c6_time_delta_reconstruction (notes : List NoteRec)
    (bar_start_tick bar_end_tick : ℕ) :
    (notes_to_bar_data notes bar_start_tick bar_end_tick).events =
      BarEvents.list (events_to_events_data
        (bar_marker_tuples notes bar_start_tick bar_end_tick)) ∧
    markers_cum 0 (events_to_events_data
        (bar_marker_tuples notes bar_start_tick bar_end_tick)) =
      py_sorted marker_le
        (bar_marker_tuples notes bar_start_tick bar_end_tick) ∧
    (∀ d, EventData.TIME_DELTA d ∈ events_to_events_data
        (bar_marker_tuples notes bar_start_tick bar_end_tick) → 0 < d) := by
  refine ⟨rfl, ?_, fun d hd => events_to_events_data_delta_pos _ d hd⟩
  apply markers_cum_events_to_events_data
  intro x hx
  simp only [bar_marker_tuples, List.mem_flatMap, note_markers,
    List.mem_cons, List.not_mem_nil, or_false] at hx
  obtain ⟨n, _, hxm⟩ := hx
  rcases hxm with rfl | rfl <;>
    · simp only
      positivity

lemma c1_bar_piano0 : notes_to_bar_data [⟨60, 0, 4000⟩] 0 4000 =
    ⟨BarEvents.list [EventData.NOTE_ON 60, EventData.TIME_DELTA 16,
      EventData.NOTE_OFF 60]⟩ := by
  norm_num [notes_to_bar_data, bar_marker_tuples, note_markers,
    events_to_events_data, py_sorted, insert_le, emit_markers, marker_le,
    marker_to_event, TICKS_PER_BAR, TICKS_PER_BEAT, BEATS_PER_BAR]

lemma c1_bar_piano1 : notes_to_bar_data [⟨60, 0, 4000⟩] 4000 8000 =
    ⟨BarEvents.list []⟩ := rfl

lemma c1_bar_empty (a b : ℕ) : notes_to_bar_data [] a b =
    ⟨BarEvents.list []⟩ := rfl

lemma c1_song_eq : c1_song =
    ⟨"c1",
     [⟨"Piano", 0, false,
       [notes_to_bar_data [⟨60, 0, 4000⟩] 0 4000,
        notes_to_bar_data [⟨60, 0, 4000⟩] 4000 8000]⟩,
      ⟨"Violin", 1, false,
       [notes_to_bar_data [] 0 4000, notes_to_bar_data [] 4000 8000]⟩]⟩ :=
  rfl

lemma c1_song_cooked : c1_song =
    ⟨"c1",
     [⟨"Piano", 0, false,
       [⟨BarEvents.list [EventData.NOTE_ON 60, EventData.TIME_DELTA 16,
          EventData.NOTE_OFF 60]⟩, ⟨BarEvents.list []⟩]⟩,
      ⟨"Violin", 1, false,
       [⟨BarEvents.list []⟩, ⟨BarEvents.list []⟩]⟩]⟩ := by
  rw [c1_song_eq, c1_bar_piano0, c1_bar_piano1, c1_bar_empty, c1_bar_empty]

/-- C1: the end-to-end scenario: the Piano/Violin song built from one
full-bar pitch-60 Piano note (ticks 0-4000) and an empty Violin track,
encoded with window 1, hop 1, transpositions `[0]`, no permutation, no
bar-fill, track-fill on number 1, yields exactly one token sequence; its
body encodes the Piano bar normally, encodes the Violin bar as a
placeholder (`BAR_START, FILL_IN, BAR_END`), and its answer segment is
exactly `FILL_START` immediately followed by `FILL_END`. -/
theorem c1_end_to_end (density_bins : List ℚ) (orc : ℕ → RandChoice) :
    encode_song_data c1_song [0] false 1 1 density_bins false true 1 orc =
      [[Token.PIECE_START, Token.TRACK_START, Token.INST 0,
        Token.DENSITY (np_digitize 1 density_bins), Token.BAR_START,
        Token.NOTE_ON 60, Token.TIME_DELTA 16, Token.NOTE_OFF 60,
        Token.BAR_END, Token.TRACK_END, Token.TRACK_START, Token.INST 1,
        Token.DENSITY (np_digitize 0 density_bins), Token.BAR_START,
        Token.FILL_IN, Token.BAR_END, Token.TRACK_END, Token.FILL_START,
        Token.FILL_END]] := by
  rw [c1_song_cooked]
  simp [encode_song_data, get_bars_number, get_bar_indices, pyRange,
    itertools_product, encode_combos, encode_one_sample, track_fill_mask,
    find_fill_track_index, mask_track_bars, encode_track_data,
    encode_bar_data, encode_event_data, bar_note_on_count, pySlice,
    bar_fill_mask, List.range', List.filterMap, List.filter,
    List.range_succ, List.range_zero]

end GradProj
